import Mathlib

/-!
Shallow embedding of the councillor-directory UI slice
(`src/types/councillor.ts`, `src/pages/Index.tsx`,
`src/components/CouncillorCard.tsx`, `src/components/CouncillorDetail.tsx`).

JSON/JS numbers carry no arithmetic in this slice (they are only compared
with `0` and displayed), so they are embedded exactly: integer-valued
counts as `Int`, the float `relevance_score` as `Rat`.  Strings are Lean
`String`s; JS `Object.entries` iteration order is embedded by keeping the
store and the fixed category record as association lists.  Static page
chrome (headings, back button styling, icons) is embedded only where a
claim depends on it; dynamic render output is modelled as lists of
render-element values.
-/

/-- `SearchResult` from `src/types/councillor.ts`: one discovered item.
The type contract declares every field — `search_time` included — as a
required (non-optional) string/number field. -/
structure SearchResult where
  title : String
  link : String
  snippet : String
  search_time : String
  relevance_score : Rat
deriving DecidableEq

/-- `CategoryResults` from `src/types/councillor.ts`: the four fixed
result buckets. -/
structure CategoryResults where
  basic_info : List SearchResult
  social_media : List SearchResult
  business_interests : List SearchResult
  controversy : List SearchResult
deriving DecidableEq

/-- `Summary` from `src/types/councillor.ts`: the precomputed aggregate. -/
structure Summary where
  total_results : Int
  potential_interests : List String
  controversy_count : Int
  has_social_media : Bool
deriving DecidableEq

/-- `CouncillorData` from `src/types/councillor.ts`. -/
structure CouncillorData where
  categories : CategoryResults
  summary : Summary
deriving DecidableEq

/-- `CouncillorResults` from `src/types/councillor.ts`: the store, a
mapping from councillor name to record.  Embedded as an association list
so that `Object.entries` iteration order is the list order. -/
abbrev Store : Type := List (String × CouncillorData)

/-- Own-property lookup on the store object (keys of a JS object are
unique; first match).  `none` means `key` is not an own property — the
full JS property access `store[key]` additionally walks the prototype
chain and is `jsLookup` below. -/
def lookupStore : Store → String → Option CouncillorData
  | [], _ => none
  | (k, v) :: rest, key => if k = key then some v else lookupStore rest key

/-- The property names of `Object.prototype`, which a parsed-JSON plain
object inherits: accessing any of them on the store yields an inherited
function (or, for `__proto__`, an object) — a truthy value that is not a
councillor record. -/
def objectPrototypeKeys : List String :=
  ["constructor", "hasOwnProperty", "isPrototypeOf", "propertyIsEnumerable",
   "toLocaleString", "toString", "valueOf", "__proto__",
   "__defineGetter__", "__defineSetter__", "__lookupGetter__", "__lookupSetter__"]

/-- Outcome of the full JS property access `store[key]`: an own store
entry, a truthy value inherited from `Object.prototype`, or `undefined`. -/
inductive JsLookup where
  | found (c : CouncillorData)
  | inherited
  | missing
deriving DecidableEq

/-- Full JS property access `councillorData[decodedName]`
(`src/components/CouncillorDetail.tsx` line 38): own properties shadow
the prototype chain; a non-key that names an `Object.prototype` property
yields an inherited truthy non-record; anything else is `undefined`. -/
def jsLookup (store : Store) (key : String) : JsLookup :=
  match lookupStore store key with
  | some c => JsLookup.found c
  | none =>
    if objectPrototypeKeys.contains key then JsLookup.inherited else JsLookup.missing

/-- Is the access outcome an inherited `Object.prototype` member? -/
def isInherited : JsLookup → Bool
  | JsLookup.inherited => true
  | _ => false

/-- `name.toLowerCase().includes(searchTerm.toLowerCase())` from
`src/pages/Index.tsx` line 12, relative to a lowercasing function.
`String.prototype.toLowerCase` is the Unicode Default Case Conversion,
whose table lives outside this repository, so the filter is embedded
over an arbitrary `jsLower : String → String` and every statement about
it is proved for all such functions — in particular for the ECMA-262
one.  `includes` is substring containment; on well-formed strings the
code-unit-level and scalar-level notions coincide. -/
def containsCIWith (jsLower : String → String) (name searchTerm : String) : Bool :=
  decide ((jsLower searchTerm).data <:+: (jsLower name).data)

/-- `filteredCouncillors` from `src/pages/Index.tsx` lines 10–13:
`Object.entries(councillorData).filter(([name]) => name.toLowerCase().includes(searchTerm.toLowerCase()))`,
relative to the lowercasing function. -/
def filteredCouncillorsWith (jsLower : String → String) (store : Store)
    (searchTerm : String) : Store :=
  List.filter (fun p => containsCIWith jsLower p.1 searchTerm) store

/-- The basic-latin fragment of `toLowerCase` (`Char.toLower` maps only
`A`–`Z`), usable as a concrete instance exactly where the case table is
provably irrelevant, such as the empty search string. -/
def asciiLower (s : String) : String := String.mk (s.data.map Char.toLower)

/-- The list-view filter at the basic-latin instance. -/
def filteredCouncillors (store : Store) (searchTerm : String) : Store :=
  filteredCouncillorsWith asciiLower store searchTerm

/-- Dynamic render output of the list view (`Index.tsx`): one card per
filtered councillor, plus the empty-state message. -/
inductive IndexElem where
  | card (name : String) (data : CouncillorData)
  | emptyState
deriving DecidableEq

/-- The dynamic part of `Index`'s render (`src/pages/Index.tsx` lines
27–37): `filteredCouncillors.map(...)` then the conditional
`filteredCouncillors.length === 0 && <p>No councillors found...</p>`,
relative to the lowercasing function. -/
def renderIndexWith (jsLower : String → String) (store : Store)
    (searchTerm : String) : List IndexElem :=
  (filteredCouncillorsWith jsLower store searchTerm).map
    (fun p => IndexElem.card p.1 p.2) ++
  (if (filteredCouncillorsWith jsLower store searchTerm).length = 0 then
    [IndexElem.emptyState] else [])

/-- The list-view render at the basic-latin instance. -/
def renderIndex (store : Store) (searchTerm : String) : List IndexElem :=
  renderIndexWith asciiLower store searchTerm

/-- The cards occurring in a list-view render, in order. -/
def cardsOf (elems : List IndexElem) : List (String × CouncillorData) :=
  elems.filterMap fun e =>
    match e with
    | IndexElem.card n d => some (n, d)
    | IndexElem.emptyState => none

/-- Render output of one `CouncillorCard` (`src/components/CouncillorCard.tsx`). -/
inductive CardElem where
  | title (s : String)
  | badge (category : String) (count : Nat)
  | totalResults (n : Int)
  | controversyLine (n : Int)
deriving DecidableEq

/-- `Object.entries(data.categories)` / `Object.entries(councillor.categories)`:
the four buckets in the declaration order of `CategoryResults`. -/
def categoriesEntries (c : CategoryResults) : List (String × List SearchResult) :=
  [("basic_info", c.basic_info), ("social_media", c.social_media),
   ("business_interests", c.business_interests), ("controversy", c.controversy)]

/-- `CouncillorCard`'s render (`src/components/CouncillorCard.tsx` lines
36–63): the name, one badge per category with `results.length > 0`, the
`Total Results: {summary.total_results}` line, and — only when
`summary.controversy_count > 0` — the red
`Controversy Items: {summary.controversy_count}` line. -/
def renderCouncillorCard (name : String) (data : CouncillorData) : List CardElem :=
  [CardElem.title name] ++
  ((categoriesEntries data.categories).filterMap fun p =>
    if p.2.length > 0 then some (CardElem.badge p.1 p.2.length) else none) ++
  [CardElem.totalResults data.summary.total_results] ++
  (if data.summary.controversy_count > 0 then
    [CardElem.controversyLine data.summary.controversy_count] else [])

/-!
JS `encodeURIComponent` / `decodeURIComponent` (ECMA-262 `Encode` /
`Decode`), called at `src/components/CouncillorCard.tsx` line 34 and
`src/components/CouncillorDetail.tsx` line 37.  `encodeURIComponent`
leaves the unreserved characters alone and percent-encodes the UTF-8
bytes of every other character; `decodeURIComponent` parses `%XX`
escapes, reassembles UTF-8 sequences, and raises `URIError` (embedded as
`none`) on a malformed escape or invalid UTF-8.
-/

/-- The characters `encodeURIComponent` leaves unescaped:
`A`–`Z`, `a`–`z`, `0`–`9` and `- _ . ! ~ * ' ( )`. -/
def uriUnreserved (c : Char) : Bool :=
  (('A' ≤ c ∧ c ≤ 'Z') ∨ ('a' ≤ c ∧ c ≤ 'z') ∨ ('0' ≤ c ∧ c ≤ '9') ∨
    c = '-' ∨ c = '_' ∨ c = '.' ∨ c = '!' ∨ c = '~' ∨ c = '*' ∨
    c = '\'' ∨ c = '(' ∨ c = ')' : Bool)

/-- Upper-case hex digit for `n < 16` (as `encodeURIComponent` emits). -/
def toHexDigit (n : Nat) : Char :=
  if n < 10 then Char.ofNat (48 + n) else Char.ofNat (55 + n)

/-- `%XX` escape of one byte. -/
def encodeByte (b : Nat) : List Char :=
  ['%', toHexDigit (b / 16), toHexDigit (b % 16)]

/-- UTF-8 encoding of one scalar value, as a list of byte values. -/
def utf8EncodeChar (c : Char) : List Nat :=
  if c.toNat < 0x80 then [c.toNat]
  else if c.toNat < 0x800 then [0xC0 + c.toNat / 0x40, 0x80 + c.toNat % 0x40]
  else if c.toNat < 0x10000 then
    [0xE0 + c.toNat / 0x1000, 0x80 + (c.toNat / 0x40) % 0x40,
     0x80 + c.toNat % 0x40]
  else
    [0xF0 + c.toNat / 0x40000, 0x80 + (c.toNat / 0x1000) % 0x40,
     0x80 + (c.toNat / 0x40) % 0x40, 0x80 + c.toNat % 0x40]

/-- `encodeURIComponent` on one character. -/
def encodeChar (c : Char) : List Char :=
  if uriUnreserved c then [c] else (utf8EncodeChar c).flatMap encodeByte

/-- JS `encodeURIComponent`. -/
def encodeURIComponent (s : String) : String :=
  String.mk (s.data.flatMap encodeChar)

/-- Value of one hex digit; `decodeURIComponent` accepts both cases. -/
def hexDigitVal (c : Char) : Option Nat :=
  if '0' ≤ c ∧ c ≤ '9' then some (c.toNat - 48)
  else if 'A' ≤ c ∧ c ≤ 'F' then some (c.toNat - 55)
  else if 'a' ≤ c ∧ c ≤ 'f' then some (c.toNat - 87)
  else none

/-- Byte value of a two-hex-digit escape body. -/
def hexByte (h l : Char) : Option Nat :=
  match hexDigitVal h, hexDigitVal l with
  | some x, some y => some (16 * x + y)
  | _, _ => none

/-- Scanner alphabet for `decodeURIComponent`: a literal character, or
the byte of one `%XX` escape. -/
inductive UriTok where
  | raw (c : Char)
  | byte (b : Nat)
deriving DecidableEq

/-- First pass of ECMA-262 `Decode`: replace each `%XX` escape by its
byte; fail (`URIError`) when a `%` is not followed by two hex digits. -/
def percentTokens : List Char → Option (List UriTok)
  | [] => some []
  | c :: rest =>
    if c = '%' then
      match rest with
      | h :: l :: rest' =>
        match hexByte h l with
        | some b => (percentTokens rest').map (fun ts => UriTok.byte b :: ts)
        | none => none
      | _ => none
    else
      (percentTokens rest).map (fun ts => UriTok.raw c :: ts)

/-- Payload of a UTF-8 continuation byte (`10xxxxxx`), else `none`. -/
def contVal (b : Nat) : Option Nat :=
  if 0x80 ≤ b ∧ b < 0xC0 then some (b - 0x80) else none

/-- Second pass of ECMA-262 `Decode`, as a streaming UTF-8 decoder.
The state is `none` between scalars, or `some (need, lo, acc)` inside a
multi-byte sequence: `need` continuation bytes still expected, `lo` the
least scalar the sequence may legally produce (overlong check), `acc` the
value accumulated so far.  Literal characters pass through; escape bytes
must form valid UTF-8 (no stray or missing continuation byte, no overlong
form, no surrogate, no value past `0x10FFFF`), else `URIError`. -/
def utf8DecodeLoop : Option (Nat × Nat × Nat) → List UriTok → Option (List Char)
  | none, [] => some []
  | some _, [] => none
  | none, UriTok.raw c :: rest =>
    (utf8DecodeLoop none rest).map (fun cs => c :: cs)
  | none, UriTok.byte b :: rest =>
    if b < 0x80 then (utf8DecodeLoop none rest).map (fun cs => Char.ofNat b :: cs)
    else if b < 0xC2 then none
    else if b < 0xE0 then utf8DecodeLoop (some (1, 0x80, b - 0xC0)) rest
    else if b < 0xF0 then utf8DecodeLoop (some (2, 0x800, b - 0xE0)) rest
    else if b < 0xF5 then utf8DecodeLoop (some (3, 0x10000, b - 0xF0)) rest
    else none
  | some _, UriTok.raw _ :: _ => none
  | some (need, lo, acc), UriTok.byte b :: rest =>
    match contVal b with
    | none => none
    | some v =>
      if need ≤ 1 then
        if acc * 0x40 + v < lo ∨
            (0xD800 ≤ acc * 0x40 + v ∧ acc * 0x40 + v < 0xE000) ∨
            0x110000 ≤ acc * 0x40 + v then none
        else (utf8DecodeLoop none rest).map (fun cs => Char.ofNat (acc * 0x40 + v) :: cs)
      else utf8DecodeLoop (some (need - 1, lo, acc * 0x40 + v)) rest

/-- UTF-8 decoding of a token stream, starting between scalars. -/
def utf8Decode (ts : List UriTok) : Option (List Char) :=
  utf8DecodeLoop none ts

/-- JS `decodeURIComponent`; `none` embeds a thrown `URIError`. -/
def decodeURIComponent (s : String) : Option String :=
  ((percentTokens s.data).bind utf8Decode).map String.mk

/-- `navigate("/councillor/" + encodeURIComponent(name))` from
`src/components/CouncillorCard.tsx` line 34: the route a card click
navigates to. -/
def cardClickRoute (name : String) : String :=
  "/councillor/" ++ encodeURIComponent name


/-- Render output of one `ResultCard` (`src/components/CouncillorDetail.tsx`
lines 10–29). -/
inductive RCardElem where
  | linkTo (href title : String)
  | snippet (s : String)
  | relevance (x : Rat)
  | searchTime (s : String)
deriving DecidableEq

/-- `ResultCard`'s render: the external link, the snippet, the relevance
figure, and — via JS truthiness in `result.search_time && <span>...` —
the `search_time` span only when the string is non-empty. -/
def renderResultCard (r : SearchResult) : List RCardElem :=
  [RCardElem.linkTo r.link r.title, RCardElem.snippet r.snippet,
   RCardElem.relevance r.relevance_score] ++
  (if r.search_time = "" then [] else [RCardElem.searchTime r.search_time])

/-- Render output of the detail view (`src/components/CouncillorDetail.tsx`). -/
inductive DetailElem where
  | notFound
  | backButton
  | nameTitle (s : String)
  | totalResults (n : Int)
  | controversyCount (n : Int)
  | potentialInterestsCount (n : Nat)
  | section (category : String) (count : Nat)
      (cards : List (List RCardElem)) (emptyMsg : Bool)
deriving DecidableEq

/-- `filteredCategories` from `src/components/CouncillorDetail.tsx` lines
55–57: `Object.entries(councillor.categories).filter(([category]) =>
!['basic_info', 'social_media'].includes(category))`. -/
def filteredCategories (c : CategoryResults) : List (String × List SearchResult) :=
  (categoriesEntries c).filter fun p =>
    !(["basic_info", "social_media"].contains p.1)

/-- The successful detail render (`CouncillorDetail.tsx` lines 59–112):
back button, name title, the three summary header figures, then one
accordion section per remaining category with its count, its result
cards, and the `No results found` message exactly when it is empty. -/
def renderDetailFound (decodedName : String) (councillor : CouncillorData) : List DetailElem :=
  [DetailElem.backButton, DetailElem.nameTitle decodedName,
   DetailElem.totalResults councillor.summary.total_results,
   DetailElem.controversyCount councillor.summary.controversy_count,
   DetailElem.potentialInterestsCount councillor.summary.potential_interests.length] ++
  (filteredCategories councillor.categories).map fun p =>
    DetailElem.section p.1 p.2.length (p.2.map renderResultCard)
      (decide (p.2.length = 0))

/-- `CouncillorDetail` (`src/components/CouncillorDetail.tsx` lines
31–113): `if (!name) return null` (embedded as `some []`), then
`decodeURIComponent(name)` (whose `URIError` is the outer `none`), then
the property access `councillorData[decodedName]`.  `undefined` is falsy,
so only a `missing` access renders `Councillor not found`; an inherited
`Object.prototype` member is truthy, passes the guard, and the component
throws `TypeError` at `Object.entries(councillor.categories)` on line 55
(also embedded as the outer `none`). -/
def renderCouncillorDetail (store : Store) (name : Option String) : Option (List DetailElem) :=
  match name with
  | none => some []
  | some n =>
    match decodeURIComponent n with
    | none => none
    | some decodedName =>
      match jsLookup store decodedName with
      | JsLookup.missing => some [DetailElem.notFound]
      | JsLookup.inherited => none
      | JsLookup.found councillor => some (renderDetailFound decodedName councillor)

/-! ### Sample data for concrete witnesses -/

/-- A concrete search result (shape of the spec's worked example). -/
def sampleResult : SearchResult :=
  { title := "X", link := "http://x", snippet := "s",
    search_time := "1s", relevance_score := 1 }

/-- A concrete councillor record whose summary agrees with its categories. -/
def janeData : CouncillorData :=
  { categories :=
      { basic_info := [], social_media := [],
        business_interests := [], controversy := [sampleResult] },
    summary :=
      { total_results := 1, potential_interests := [],
        controversy_count := 1, has_social_media := false } }

/-- A second concrete record, with no results at all. -/
def bobData : CouncillorData :=
  { categories :=
      { basic_info := [], social_media := [],
        business_interests := [], controversy := [] },
    summary :=
      { total_results := 0, potential_interests := [],
        controversy_count := 0, has_social_media := false } }

/-- A concrete two-councillor store. -/
def sampleStore : Store := [("Jane Doe", janeData), ("Bob Ray", bobData)]

/-- Is a card element one of the numeric summary displays? -/
def isCardFigure : CardElem → Bool
  | CardElem.totalResults _ => true
  | CardElem.controversyLine _ => true
  | _ => false

/-- The numeric summary displays of a councillor card, in order. -/
def cardFigures (name : String) (d : CouncillorData) : List CardElem :=
  (renderCouncillorCard name d).filter isCardFigure

/-- Is a detail element one of the three header figures? -/
def isHeaderFigure : DetailElem → Bool
  | DetailElem.totalResults _ => true
  | DetailElem.controversyCount _ => true
  | DetailElem.potentialInterestsCount _ => true
  | _ => false

/-- The summary-header figures of a successful detail render, in order. -/
def headerFigures (decodedName : String) (d : CouncillorData) : List DetailElem :=
  (renderDetailFound decodedName d).filter isHeaderFigure

/-- A record with the same summary as `janeData` but different category
contents (its controversy bucket is empty). -/
def janeLikeData : CouncillorData :=
  { categories :=
      { basic_info := [sampleResult], social_media := [],
        business_interests := [], controversy := [] },
    summary := janeData.summary }

/-- Is a card element the red controversy line? -/
def isControversyLine : CardElem → Bool
  | CardElem.controversyLine _ => true
  | _ => false

/-- A record whose summary disagrees with its categories: one controversy
item, but `summary.controversy_count = 0`. -/
def inconsistentData : CouncillorData :=
  { categories :=
      { basic_info := [], social_media := [],
        business_interests := [], controversy := [sampleResult] },
    summary :=
      { total_results := 1, potential_interests := [],
        controversy_count := 0, has_social_media := false } }

/-- Token image of one encoded character: a raw token if unreserved, else
the byte tokens of its UTF-8 encoding. -/
def encTok (c : Char) : List UriTok :=
  if uriUnreserved c then [UriTok.raw c] else (utf8EncodeChar c).map UriTok.byte

/-! ### List view: helper lemmas -/

theorem cardsOf_map_card (l : Store) :
    cardsOf (l.map fun p => IndexElem.card p.1 p.2) = l := by
  induction l with
  | nil => rfl
  | cons a t ih =>
    simp only [List.map_cons, cardsOf, List.filterMap_cons] at ih ⊢
    rw [ih]

theorem cardsOf_renderIndex (jsLower : String → String) (store : Store) (s : String) :
    cardsOf (renderIndexWith jsLower store s) =
      filteredCouncillorsWith jsLower store s := by
  unfold renderIndexWith
  unfold cardsOf
  rw [List.filterMap_append]
  have h2 : (List.filterMap
      (fun e =>
        match e with
        | IndexElem.card n d => some (n, d)
        | IndexElem.emptyState => none)
      (if (filteredCouncillorsWith jsLower store s).length = 0 then
        [IndexElem.emptyState] else [])) = [] := by
    split <;> rfl
  rw [h2, List.append_nil]
  exact cardsOf_map_card _

theorem containsCI_empty_search (jsLower : String → String)
    (h0 : jsLower "" = "") (n : String) : containsCIWith jsLower n "" = true := by
  unfold containsCIWith
  rw [h0]
  exact decide_eq_true List.nil_infix

/-- C8: filtering with the empty search string is the identity — the list
view renders a card for every councillor in the store.  (`toLowerCase` of
the empty string is the empty string under any case table, and the empty
string is a substring of every name, so this transfers to the program
regardless of the case-conversion table.) -/
theorem empty_search_shows_all (store : Store) :
    filteredCouncillors store "" = store ∧
    cardsOf (renderIndex store "") = store := by
  have h : filteredCouncillors store "" = store := by
    unfold filteredCouncillors filteredCouncillorsWith
    apply List.filter_eq_self.mpr
    intro a _
    exact containsCI_empty_search asciiLower rfl a.1
  refine ⟨h, ?_⟩
  unfold renderIndex
  rw [cardsOf_renderIndex]
  exact h

/-- C1: for every lowercasing function — hence in particular for the
ECMA-262 `toLowerCase`, whose Unicode table lives outside this
repository — and every store with unique names, the list view renders
exactly one card per councillor whose lowercased name contains the
lowercased search string, no card for any other entry, and the cards
appear in the iteration order of the store. -/
theorem index_cards_exactly_matches (jsLower : String → String)
    (store : Store) (s : String)
    (hkeys : (store.map Prod.fst).Nodup) :
    (∀ nd : String × CouncillorData,
      @List.count _ instBEqOfDecidableEq nd (cardsOf (renderIndexWith jsLower store s)) =
        if nd ∈ store ∧ containsCIWith jsLower nd.1 s = true then 1 else 0) ∧
    (cardsOf (renderIndexWith jsLower store s)).Sublist store := by
  have hnd : store.Nodup := List.Nodup.of_map Prod.fst hkeys
  constructor
  · intro nd
    rw [cardsOf_renderIndex]
    unfold filteredCouncillorsWith
    by_cases hm : nd ∈ store ∧ containsCIWith jsLower nd.1 s = true
    · rw [if_pos hm,
        @List.count_filter (String × CouncillorData) instBEqOfDecidableEq
          instLawfulBEq (fun p => containsCIWith jsLower p.1 s) nd store hm.2]
      exact List.count_eq_one_of_mem hnd hm.1
    · rw [if_neg hm]
      refine (@List.count_eq_zero _ instBEqOfDecidableEq instLawfulBEq nd _).mpr ?_
      intro hmem
      obtain ⟨h1, h2⟩ := List.mem_filter.mp hmem
      exact hm ⟨h1, h2⟩
  · rw [cardsOf_renderIndex]
    exact List.filter_sublist store

/-- Witness for C1 at a concrete lowercasing function, store and search
string. -/
theorem index_cards_exactly_matches_witness :
    @List.count _ instBEqOfDecidableEq ("Jane Doe", janeData)
      (cardsOf (renderIndexWith asciiLower sampleStore "jane")) = 1 := by
  have h := (index_cards_exactly_matches asciiLower sampleStore "jane" (by decide)).1
    ("Jane Doe", janeData)
  rw [h, if_pos ⟨by decide, by decide⟩]

/-! ### Card and detail-header figures -/

theorem filter_filterMap_nil {A B : Type} (f : A → Option B) (q : B → Bool)
    (h : ∀ a b, f a = some b → q b = false) (l : List A) :
    (l.filterMap f).filter q = [] := by
  induction l with
  | nil => rfl
  | cons a t ih =>
    rw [List.filterMap_cons]
    cases hfa : f a with
    | none => exact ih
    | some b =>
      rw [List.filter_cons, h a b hfa]
      simpa using ih

theorem badges_filter_figures (l : List (String × List SearchResult)) :
    (l.filterMap fun p =>
      if p.2.length > 0 then some (CardElem.badge p.1 p.2.length) else none).filter
        isCardFigure = [] := by
  apply filter_filterMap_nil
  intro a b hab
  split at hab
  · cases hab
    rfl
  · cases hab

theorem cardFigures_eq (name : String) (d : CouncillorData) :
    cardFigures name d =
      CardElem.totalResults d.summary.total_results ::
        (if d.summary.controversy_count > 0 then
          [CardElem.controversyLine d.summary.controversy_count] else []) := by
  unfold cardFigures renderCouncillorCard
  rw [List.filter_append, List.filter_append, List.filter_append,
    badges_filter_figures]
  have h1 : List.filter isCardFigure [CardElem.title name] = [] := rfl
  have h2 : List.filter isCardFigure [CardElem.totalResults d.summary.total_results] =
      [CardElem.totalResults d.summary.total_results] := rfl
  have h3 : List.filter isCardFigure
      (if d.summary.controversy_count > 0 then
        [CardElem.controversyLine d.summary.controversy_count] else []) =
      (if d.summary.controversy_count > 0 then
        [CardElem.controversyLine d.summary.controversy_count] else []) := by
    split
    · rfl
    · rfl
  rw [h1, h2, h3]
  simp

theorem sections_filter_figures (l : List (String × List SearchResult)) :
    (l.map fun p =>
      DetailElem.section p.1 p.2.length (p.2.map renderResultCard)
        (decide (p.2.length = 0))).filter isHeaderFigure = [] := by
  induction l with
  | nil => rfl
  | cons a t ih =>
    rw [List.map_cons, List.filter_cons]
    have h : isHeaderFigure (DetailElem.section a.1 a.2.length
        (a.2.map renderResultCard) (decide (a.2.length = 0))) = false := rfl
    rw [h]
    simpa using ih

theorem headerFigures_eq (decodedName : String) (d : CouncillorData) :
    headerFigures decodedName d =
      [DetailElem.totalResults d.summary.total_results,
       DetailElem.controversyCount d.summary.controversy_count,
       DetailElem.potentialInterestsCount d.summary.potential_interests.length] := by
  unfold headerFigures renderDetailFound
  rw [List.filter_append, sections_filter_figures]
  have h : List.filter isHeaderFigure
      [DetailElem.backButton, DetailElem.nameTitle decodedName,
       DetailElem.totalResults d.summary.total_results,
       DetailElem.controversyCount d.summary.controversy_count,
       DetailElem.potentialInterestsCount d.summary.potential_interests.length] =
      [DetailElem.totalResults d.summary.total_results,
       DetailElem.controversyCount d.summary.controversy_count,
       DetailElem.potentialInterestsCount d.summary.potential_interests.length] := rfl
  rw [h]
  simp

/-- C7: the card's and detail header's numeric displays are read from the
summary as-is — two records with equal summaries display identical
figures regardless of any difference in their categories. -/
theorem summary_determines_figures (n₁ n₂ : String) (d₁ d₂ : CouncillorData)
    (h : d₁.summary = d₂.summary) :
    cardFigures n₁ d₁ = cardFigures n₂ d₂ ∧
    headerFigures n₁ d₁ = headerFigures n₂ d₂ := by
  rw [cardFigures_eq, cardFigures_eq, headerFigures_eq, headerFigures_eq, h]
  exact ⟨rfl, rfl⟩

/-- Witness for C7 at two concrete records with equal summaries and
different categories. -/
theorem summary_determines_figures_witness :
    cardFigures "Jane Doe" janeData = cardFigures "Someone Else" janeLikeData ∧
    headerFigures "Jane Doe" janeData = headerFigures "Someone Else" janeLikeData :=
  summary_determines_figures "Jane Doe" "Someone Else" janeData janeLikeData rfl

/-! ### Controversy count display (C2) -/

/-- C2 (amended): the card and the detail header read the controversy
figure from `summary.controversy_count`, not from the category list — so
for every record whose summary is consistent with its categories
(`controversy_count = categories.controversy.length`), a record with
`N > 0` controversy items shows `N` in both places, and with `N = 0` the
red card line is omitted. -/
theorem controversy_count_display (name : String) (d : CouncillorData)
    (hcons : d.summary.controversy_count = (d.categories.controversy.length : Int)) :
    (0 < d.categories.controversy.length →
      CardElem.controversyLine (d.categories.controversy.length : Int) ∈
        renderCouncillorCard name d ∧
      DetailElem.controversyCount (d.categories.controversy.length : Int) ∈
        renderDetailFound name d) ∧
    (d.categories.controversy.length = 0 →
      ∀ m : Int, CardElem.controversyLine m ∉ renderCouncillorCard name d) := by
  constructor
  · intro hpos
    have hgt : d.summary.controversy_count > 0 := by
      rw [hcons]
      exact_mod_cast hpos
    constructor
    · unfold renderCouncillorCard
      rw [if_pos hgt, hcons]
      simp
    · unfold renderDetailFound
      rw [hcons]
      simp
  · intro h0 m hmem
    have hmem2 : CardElem.controversyLine m ∈ cardFigures name d :=
      List.mem_filter.mpr ⟨hmem, rfl⟩
    rw [cardFigures_eq] at hmem2
    have hng : ¬ d.summary.controversy_count > 0 := by
      rw [hcons, h0]
      decide
    rw [if_neg hng] at hmem2
    simp at hmem2

/-- Witness for C2 at a concrete consistent record with one controversy
item. -/
theorem controversy_count_display_witness :
    CardElem.controversyLine 1 ∈ renderCouncillorCard "Jane Doe" janeData ∧
    DetailElem.controversyCount 1 ∈ renderDetailFound "Jane Doe" janeData :=
  (controversy_count_display "Jane Doe" janeData (by decide)).1 (by decide)

/-- Counterexample to C2 as stated: this record's controversy list has
length `N = 1 > 0`, yet its card shows no controversy line at all and its
detail header does not display `1` — the UI displays
`summary.controversy_count`, not the category length. -/
theorem controversy_count_display_cex :
    inconsistentData.categories.controversy.length = 1 ∧
    (renderCouncillorCard "X" inconsistentData).any isControversyLine = false ∧
    DetailElem.controversyCount 1 ∉ renderDetailFound "X" inconsistentData := by
  decide

/-! ### Result card: search_time handling (C9) -/

/-- C9: even though `SearchResult.search_time` is a required string field,
the result card renders the `search_time` span only when the string is
truthy (non-empty), and any `search_time` span it renders carries exactly
the record's `search_time` value. -/
theorem search_time_rendered_iff_truthy (r : SearchResult) :
    (RCardElem.searchTime r.search_time ∈ renderResultCard r ↔ r.search_time ≠ "") ∧
    (∀ s, RCardElem.searchTime s ∈ renderResultCard r → s = r.search_time) := by
  unfold renderResultCard
  constructor
  · constructor
    · intro hmem heq
      rw [heq] at hmem
      simp [heq] at hmem
    · intro hne
      rw [if_neg hne]
      simp
  · intro s hmem
    rcases List.mem_append.mp hmem with h | h
    · simp at h
    · by_cases heq : r.search_time = ""
      · rw [if_pos heq] at h
        simp at h
      · rw [if_neg heq] at h
        simp at h
        exact h

/-- Witness for C9 at a concrete result with a truthy `search_time`. -/
theorem search_time_rendered_iff_truthy_witness : "1s" = sampleResult.search_time :=
  (search_time_rendered_iff_truthy sampleResult).2 "1s" (by decide)

/-! ### Detail view: not-found and absent-name behaviour (C4, C10) -/

theorem notFound_not_mem_renderDetailFound (dn : String) (c : CouncillorData) :
    DetailElem.notFound ∉ renderDetailFound dn c := by
  intro hmem
  unfold renderDetailFound at hmem
  rcases List.mem_append.mp hmem with h | h
  · simp at h
  · rcases List.mem_map.mp h with ⟨p, _, heq⟩
    cases heq

theorem jsLookup_missing (store : Store) (dn : String)
    (hlook : lookupStore store dn = none)
    (hproto : objectPrototypeKeys.contains dn = false) :
    jsLookup store dn = JsLookup.missing := by
  simp only [jsLookup, hlook, hproto]
  rfl

theorem lookupStore_none_of_missing (store : Store) (dn : String)
    (h : jsLookup store dn = JsLookup.missing) : lookupStore store dn = none := by
  cases hlook : lookupStore store dn with
  | none => rfl
  | some c =>
    simp only [jsLookup, hlook] at h
    exact JsLookup.noConfusion h

/-- C4 (amended): whenever the route name decodes to a string that is
neither a key of the store nor a property name of `Object.prototype`,
the detail view renders the not-found message and nothing else.  (For a
non-key that does name an `Object.prototype` property, the inherited
value is truthy, the guard is passed, and the component throws
`TypeError` instead of rendering not-found.) -/
theorem detail_unknown_renders_only_not_found (store : Store) (n dn : String)
    (hdec : decodeURIComponent n = some dn)
    (hlook : lookupStore store dn = none)
    (hproto : objectPrototypeKeys.contains dn = false) :
    renderCouncillorDetail store (some n) = some [DetailElem.notFound] := by
  simp only [renderCouncillorDetail, hdec, jsLookup_missing store dn hlook hproto]

/-- Witness for C4: a name absent from the concrete store and from the
prototype. -/
theorem detail_unknown_renders_only_not_found_witness :
    renderCouncillorDetail sampleStore (some "Nobody") = some [DetailElem.notFound] :=
  detail_unknown_renders_only_not_found sampleStore "Nobody" "Nobody"
    (by decide) (by decide) (by decide)

/-- Counterexample to C4 as stated: `toString` decodes to itself and is
not a key of the store, yet the detail view does not render the
not-found message — JS property access returns the inherited, truthy
`Object.prototype.toString`, the falsy guard is passed, and
`Object.entries(councillor.categories)` throws `TypeError` (the render
is the error `none`). -/
theorem detail_unknown_renders_only_not_found_cex :
    decodeURIComponent "toString" = some "toString" ∧
    lookupStore sampleStore "toString" = none ∧
    renderCouncillorDetail sampleStore (some "toString") = none ∧
    renderCouncillorDetail sampleStore (some "toString") ≠
      some [DetailElem.notFound] := by
  decide

/-- C10: with no route name at all the detail view renders nothing
(`null`), not the not-found message — the not-found message appears only
when a name is present, decodes, and its decoded form misses the store. -/
theorem detail_absent_name_renders_nothing (store : Store) (name : Option String) :
    renderCouncillorDetail store none = some [] ∧
    (∀ out, renderCouncillorDetail store name = some out →
      DetailElem.notFound ∈ out →
      ∃ n dn, name = some n ∧ decodeURIComponent n = some dn ∧
        lookupStore store dn = none) := by
  refine ⟨rfl, ?_⟩
  intro out hrender hmem
  cases name with
  | none =>
    have hout : out = [] := by
      simp only [renderCouncillorDetail] at hrender
      exact (Option.some_inj.mp hrender).symm
    rw [hout] at hmem
    cases hmem
  | some n =>
    refine ⟨n, ?_⟩
    simp only [renderCouncillorDetail] at hrender
    cases hdec : decodeURIComponent n with
    | none =>
      simp only [hdec] at hrender
      exact Option.noConfusion hrender
    | some dn =>
      simp only [hdec] at hrender
      cases hlook : jsLookup store dn with
      | missing => exact ⟨dn, rfl, rfl, lookupStore_none_of_missing store dn hlook⟩
      | inherited =>
        simp only [hlook] at hrender
        exact Option.noConfusion hrender
      | found c =>
        simp only [hlook] at hrender
        have hout : renderDetailFound dn c = out := Option.some_inj.mp hrender
        rw [← hout] at hmem
        exact absurd hmem (notFound_not_mem_renderDetailFound dn c)

/-- Witness for C10: the not-found element in a concrete miss render. -/
theorem detail_absent_name_renders_nothing_witness :
    ∃ n dn, (some "Nope" : Option String) = some n ∧
      decodeURIComponent n = some dn ∧ lookupStore sampleStore dn = none :=
  (detail_absent_name_renders_nothing sampleStore (some "Nope")).2
    [DetailElem.notFound] (by decide) (by decide)

/-! ### Detail view: excluded accordion sections (C5) -/

/-- C5: no accordion section of any detail render is `basic_info` or
`social_media`, whatever the record's categories contain. -/
theorem detail_sections_exclude_identity_categories (store : Store) (n : String)
    (out : List DetailElem)
    (hrender : renderCouncillorDetail store (some n) = some out)
    (cat : String) (cnt : Nat) (cards : List (List RCardElem)) (msg : Bool)
    (hmem : DetailElem.section cat cnt cards msg ∈ out) :
    cat ≠ "basic_info" ∧ cat ≠ "social_media" := by
  simp only [renderCouncillorDetail] at hrender
  cases hdec : decodeURIComponent n with
  | none =>
    simp only [hdec] at hrender
    exact Option.noConfusion hrender
  | some dn =>
    simp only [hdec] at hrender
    cases hlook : jsLookup store dn with
    | missing =>
      simp only [hlook] at hrender
      have hout : [DetailElem.notFound] = out := Option.some_inj.mp hrender
      rw [← hout] at hmem
      simp at hmem
    | inherited =>
      simp only [hlook] at hrender
      exact Option.noConfusion hrender
    | found c =>
      simp only [hlook] at hrender
      have hout : renderDetailFound dn c = out := Option.some_inj.mp hrender
      rw [← hout] at hmem
      unfold renderDetailFound at hmem
      rcases List.mem_append.mp hmem with h | h
      · simp at h
      · rcases List.mem_map.mp h with ⟨p, hp, heq⟩
        have hcat : p.1 = cat := by
          injection heq
        have hfilter := (List.mem_filter.mp hp).2
        rw [hcat] at hfilter
        simp [List.contains] at hfilter
        exact ⟨hfilter.1, hfilter.2⟩

/-- Witness for C5 at a concrete render and section. -/
theorem detail_sections_exclude_identity_categories_witness :
    "controversy" ≠ "basic_info" ∧ "controversy" ≠ "social_media" :=
  detail_sections_exclude_identity_categories sampleStore "Jane%20Doe"
    (renderDetailFound "Jane Doe" janeData) (by decide)
    "controversy" 1 [renderResultCard sampleResult] false (by decide)

/-! ### encode/decode round trip -/

theorem hexDigitVal_toHexDigit : ∀ n, n < 16 → hexDigitVal (toHexDigit n) = some n := by
  decide

theorem char_toNat_lt (c : Char) : c.toNat < 0x110000 := by
  rcases c.valid with h | h
  · exact Nat.lt_trans h (by norm_num)
  · exact h.2

theorem char_not_surrogate (c : Char) : ¬(0xD800 ≤ c.toNat ∧ c.toNat < 0xE000) := by
  have he : c.toNat = c.val.toNat := rfl
  rcases c.valid with h | h
  · omega
  · rcases h with ⟨h1, h2⟩
    omega

theorem utf8EncodeChar_lt (c : Char) : ∀ b ∈ utf8EncodeChar c, b < 256 := by
  have hv := char_toNat_lt c
  unfold utf8EncodeChar
  split
  · intro b hb
    rcases List.mem_singleton.mp hb with rfl
    omega
  · split
    · intro b hb
      rcases List.mem_cons.mp hb with rfl | hb
      · omega
      · rcases List.mem_singleton.mp hb with rfl
        omega
    · split
      · intro b hb
        rcases List.mem_cons.mp hb with rfl | hb
        · omega
        · rcases List.mem_cons.mp hb with rfl | hb
          · omega
          · rcases List.mem_singleton.mp hb with rfl
            omega
      · intro b hb
        rcases List.mem_cons.mp hb with rfl | hb
        · omega
        · rcases List.mem_cons.mp hb with rfl | hb
          · omega
          · rcases List.mem_cons.mp hb with rfl | hb
            · omega
            · rcases List.mem_singleton.mp hb with rfl
              omega

theorem pt_raw (c : Char) (hc : ¬ c = '%') (cs : List Char) :
    percentTokens (c :: cs) =
      (percentTokens cs).map (fun ts => UriTok.raw c :: ts) := by
  cases cs with
  | nil => simp only [percentTokens, if_neg hc]
  | cons h t =>
    cases t with
    | nil => simp only [percentTokens, if_neg hc]
    | cons l t' => simp only [percentTokens, if_neg hc]

theorem pt_encodeByte (b : Nat) (hb : b < 256) (cs : List Char) :
    percentTokens (encodeByte b ++ cs) =
      (percentTokens cs).map (fun ts => UriTok.byte b :: ts) := by
  have hbyte : hexByte (toHexDigit (b / 16)) (toHexDigit (b % 16)) = some b := by
    unfold hexByte
    rw [hexDigitVal_toHexDigit _ (by omega), hexDigitVal_toHexDigit _ (by omega)]
    exact congrArg some (by omega)
  show percentTokens ('%' :: toHexDigit (b / 16) :: toHexDigit (b % 16) :: cs) = _
  simp only [percentTokens, if_pos rfl, hbyte, if_true]

theorem pt_bytes (bs : List Nat) (hbs : ∀ b ∈ bs, b < 256) (cs : List Char) :
    percentTokens (bs.flatMap encodeByte ++ cs) =
      (percentTokens cs).map (fun ts => bs.map UriTok.byte ++ ts) := by
  induction bs with
  | nil => simp
  | cons b t ih =>
    rw [List.flatMap_cons, List.append_assoc,
      pt_encodeByte b (hbs b (List.mem_cons_self b t)),
      ih (fun x hx => hbs x (List.mem_cons_of_mem b hx)), Option.map_map]
    rfl

theorem uriUnreserved_ne_percent (c : Char) (h : uriUnreserved c = true) : ¬ c = '%' := by
  intro heq
  subst heq
  exact absurd h (by decide)

theorem pt_encTok (c : Char) (cs : List Char) :
    percentTokens (encodeChar c ++ cs) =
      (percentTokens cs).map (fun ts => encTok c ++ ts) := by
  unfold encodeChar encTok
  by_cases h : uriUnreserved c = true
  · rw [if_pos h, if_pos h]
    show percentTokens (c :: cs) = _
    rw [pt_raw c (uriUnreserved_ne_percent c h) cs]
    rfl
  · rw [if_neg h, if_neg h]
    exact pt_bytes _ (utf8EncodeChar_lt c) cs

theorem u8_raw (c : Char) (ts : List UriTok) :
    utf8DecodeLoop none (UriTok.raw c :: ts) =
      (utf8DecodeLoop none ts).map (fun cs => c :: cs) := by
  simp only [utf8DecodeLoop]

theorem u8_one (v : Nat) (h : v < 0x80) (ts : List UriTok) :
    utf8DecodeLoop none (UriTok.byte v :: ts) =
      (utf8DecodeLoop none ts).map (fun cs => Char.ofNat v :: cs) := by
  simp only [utf8DecodeLoop, if_pos h]

theorem u8_cont (need lo acc v : Nat) (hv : v < 0x40) (ts : List UriTok) :
    utf8DecodeLoop (some (need, lo, acc)) (UriTok.byte (0x80 + v) :: ts) =
      (if need ≤ 1 then
        if acc * 0x40 + v < lo ∨
            (0xD800 ≤ acc * 0x40 + v ∧ acc * 0x40 + v < 0xE000) ∨
            0x110000 ≤ acc * 0x40 + v then none
        else (utf8DecodeLoop none ts).map (fun cs => Char.ofNat (acc * 0x40 + v) :: cs)
      else utf8DecodeLoop (some (need - 1, lo, acc * 0x40 + v)) ts) := by
  have hcont : contVal (0x80 + v) = some v := by
    unfold contVal
    rw [if_pos (by omega)]
    exact congrArg some (by omega)
  simp only [utf8DecodeLoop, hcont]

theorem u8_lead2 (b : Nat) (h1 : 0xC2 ≤ b) (h2 : b < 0xE0) (ts : List UriTok) :
    utf8DecodeLoop none (UriTok.byte b :: ts) =
      utf8DecodeLoop (some (1, 0x80, b - 0xC0)) ts := by
  simp only [utf8DecodeLoop, if_neg (by omega : ¬ b < 0x80),
    if_neg (by omega : ¬ b < 0xC2), if_pos (by omega : b < 0xE0)]

theorem u8_lead3 (b : Nat) (h1 : 0xE0 ≤ b) (h2 : b < 0xF0) (ts : List UriTok) :
    utf8DecodeLoop none (UriTok.byte b :: ts) =
      utf8DecodeLoop (some (2, 0x800, b - 0xE0)) ts := by
  simp only [utf8DecodeLoop, if_neg (by omega : ¬ b < 0x80),
    if_neg (by omega : ¬ b < 0xC2), if_neg (by omega : ¬ b < 0xE0),
    if_pos (by omega : b < 0xF0)]

theorem u8_lead4 (b : Nat) (h1 : 0xF0 ≤ b) (h2 : b < 0xF5) (ts : List UriTok) :
    utf8DecodeLoop none (UriTok.byte b :: ts) =
      utf8DecodeLoop (some (3, 0x10000, b - 0xF0)) ts := by
  simp only [utf8DecodeLoop, if_neg (by omega : ¬ b < 0x80),
    if_neg (by omega : ¬ b < 0xC2), if_neg (by omega : ¬ b < 0xE0),
    if_neg (by omega : ¬ b < 0xF0), if_pos (by omega : b < 0xF5)]

theorem u8_step (need lo acc v : Nat) (hneed : 2 ≤ need) (hv : v < 0x40)
    (ts : List UriTok) :
    utf8DecodeLoop (some (need, lo, acc)) (UriTok.byte (0x80 + v) :: ts) =
      utf8DecodeLoop (some (need - 1, lo, acc * 0x40 + v)) ts := by
  rw [u8_cont need lo acc v hv ts, if_neg (by omega)]

theorem u8_fin (lo acc v : Nat) (hv : v < 0x40)
    (hok : ¬(acc * 0x40 + v < lo ∨
      (0xD800 ≤ acc * 0x40 + v ∧ acc * 0x40 + v < 0xE000) ∨
      0x110000 ≤ acc * 0x40 + v)) (ts : List UriTok) :
    utf8DecodeLoop (some (1, lo, acc)) (UriTok.byte (0x80 + v) :: ts) =
      (utf8DecodeLoop none ts).map (fun cs => Char.ofNat (acc * 0x40 + v) :: cs) := by
  rw [u8_cont 1 lo acc v hv ts, if_pos (by omega), if_neg hok]

theorem u8_two (v : Nat) (h1 : 0x80 ≤ v) (h2 : v < 0x800) (ts : List UriTok) :
    utf8DecodeLoop none
      (UriTok.byte (0xC0 + v / 0x40) :: UriTok.byte (0x80 + v % 0x40) :: ts) =
      (utf8DecodeLoop none ts).map (fun cs => Char.ofNat v :: cs) := by
  rw [u8_lead2 _ (by omega) (by omega),
    u8_fin 0x80 (0xC0 + v / 0x40 - 0xC0) (v % 0x40) (by omega) (by omega) ts,
    show (0xC0 + v / 0x40 - 0xC0) * 0x40 + v % 0x40 = v from by omega]

theorem u8_three (v : Nat) (h1 : 0x800 ≤ v) (h2 : v < 0x10000)
    (hsur : ¬(0xD800 ≤ v ∧ v < 0xE000)) (ts : List UriTok) :
    utf8DecodeLoop none
      (UriTok.byte (0xE0 + v / 0x1000) :: UriTok.byte (0x80 + (v / 0x40) % 0x40) ::
        UriTok.byte (0x80 + v % 0x40) :: ts) =
      (utf8DecodeLoop none ts).map (fun cs => Char.ofNat v :: cs) := by
  rw [u8_lead3 _ (by omega) (by omega),
    u8_step 2 0x800 (0xE0 + v / 0x1000 - 0xE0) ((v / 0x40) % 0x40)
      (by omega) (by omega),
    show (2 : Nat) - 1 = 1 from rfl,
    u8_fin 0x800 ((0xE0 + v / 0x1000 - 0xE0) * 0x40 + (v / 0x40) % 0x40) (v % 0x40)
      (by omega) (by omega) ts,
    show ((0xE0 + v / 0x1000 - 0xE0) * 0x40 + (v / 0x40) % 0x40) * 0x40 + v % 0x40 = v
      from by omega]

theorem u8_four (v : Nat) (h1 : 0x10000 ≤ v) (h2 : v < 0x110000) (ts : List UriTok) :
    utf8DecodeLoop none
      (UriTok.byte (0xF0 + v / 0x40000) :: UriTok.byte (0x80 + (v / 0x1000) % 0x40) ::
        UriTok.byte (0x80 + (v / 0x40) % 0x40) :: UriTok.byte (0x80 + v % 0x40) :: ts) =
      (utf8DecodeLoop none ts).map (fun cs => Char.ofNat v :: cs) := by
  rw [u8_lead4 _ (by omega) (by omega),
    u8_step 3 0x10000 (0xF0 + v / 0x40000 - 0xF0) ((v / 0x1000) % 0x40)
      (by omega) (by omega)]
  rw [show (3 : Nat) - 1 = 2 from rfl]
  rw [u8_step 2 0x10000 ((0xF0 + v / 0x40000 - 0xF0) * 0x40 + (v / 0x1000) % 0x40)
      ((v / 0x40) % 0x40) (by omega) (by omega)]
  rw [show (2 : Nat) - 1 = 1 from rfl]
  rw [u8_fin 0x10000
      (((0xF0 + v / 0x40000 - 0xF0) * 0x40 + (v / 0x1000) % 0x40) * 0x40 +
        (v / 0x40) % 0x40)
      (v % 0x40) (by omega) (by omega) ts]
  rw [show (((0xF0 + v / 0x40000 - 0xF0) * 0x40 + (v / 0x1000) % 0x40) * 0x40 +
      (v / 0x40) % 0x40) * 0x40 + v % 0x40 = v from by omega]

theorem u8_encTok (c : Char) (ts : List UriTok) :
    utf8DecodeLoop none (encTok c ++ ts) =
      (utf8DecodeLoop none ts).map (fun cs => c :: cs) := by
  unfold encTok
  split
  · exact u8_raw c ts
  · have hv := char_toNat_lt c
    have hsur := char_not_surrogate c
    unfold utf8EncodeChar
    by_cases h1 : c.toNat < 0x80
    · rw [if_pos h1]
      show utf8DecodeLoop none (UriTok.byte c.toNat :: ts) = _
      rw [u8_one c.toNat h1 ts, Char.ofNat_toNat]
    · rw [if_neg h1]
      by_cases h2 : c.toNat < 0x800
      · rw [if_pos h2]
        show utf8DecodeLoop none
          (UriTok.byte (0xC0 + c.toNat / 0x40) ::
            UriTok.byte (0x80 + c.toNat % 0x40) :: ts) = _
        rw [u8_two c.toNat (by omega) h2 ts, Char.ofNat_toNat]
      · rw [if_neg h2]
        by_cases h3 : c.toNat < 0x10000
        · rw [if_pos h3]
          show utf8DecodeLoop none
            (UriTok.byte (0xE0 + c.toNat / 0x1000) ::
              UriTok.byte (0x80 + (c.toNat / 0x40) % 0x40) ::
              UriTok.byte (0x80 + c.toNat % 0x40) :: ts) = _
          rw [u8_three c.toNat (by omega) h3 hsur ts, Char.ofNat_toNat]
        · rw [if_neg h3]
          show utf8DecodeLoop none
            (UriTok.byte (0xF0 + c.toNat / 0x40000) ::
              UriTok.byte (0x80 + (c.toNat / 0x1000) % 0x40) ::
              UriTok.byte (0x80 + (c.toNat / 0x40) % 0x40) ::
              UriTok.byte (0x80 + c.toNat % 0x40) :: ts) = _
          rw [u8_four c.toNat (by omega) hv ts, Char.ofNat_toNat]

theorem pt_encode (cs : List Char) :
    percentTokens (cs.flatMap encodeChar) = some (cs.flatMap encTok) := by
  induction cs with
  | nil => rfl
  | cons c t ih =>
    rw [List.flatMap_cons, List.flatMap_cons, pt_encTok c _, ih]
    rfl

theorem u8_decode_encTok_append (cs : List Char) (ts : List UriTok) :
    utf8DecodeLoop none (cs.flatMap encTok ++ ts) =
      (utf8DecodeLoop none ts).map (fun l => cs ++ l) := by
  induction cs with
  | nil => simp
  | cons c t ih =>
    rw [List.flatMap_cons, List.append_assoc, u8_encTok c _, ih, Option.map_map]
    rfl

theorem decode_encode (s : String) :
    decodeURIComponent (encodeURIComponent s) = some s := by
  unfold decodeURIComponent encodeURIComponent
  show ((percentTokens (s.data.flatMap encodeChar)).bind utf8Decode).map String.mk =
    some s
  rw [pt_encode, Option.some_bind]
  unfold utf8Decode
  rw [← List.append_nil (s.data.flatMap encTok), u8_decode_encTok_append]
  show some (String.mk (s.data ++ [])) = some s
  rw [List.append_nil]

theorem lookupStore_eq_of_mem (store : Store) (name : String) (data : CouncillorData)
    (hkeys : (store.map Prod.fst).Nodup) (hmem : (name, data) ∈ store) :
    lookupStore store name = some data := by
  induction store with
  | nil => cases hmem
  | cons a t ih =>
    obtain ⟨k, v⟩ := a
    rw [List.map_cons] at hkeys
    have hk1 := (List.nodup_cons.mp hkeys).1
    have hk2 := (List.nodup_cons.mp hkeys).2
    rcases List.mem_cons.mp hmem with heq | hmem'
    · injection heq with e1 e2
      subst e1
      subst e2
      simp only [lookupStore, if_pos rfl, if_true]
    · have hk : ¬ k = name := by
        intro heq
        subst heq
        exact hk1 (List.mem_map.mpr ⟨(k, data), hmem', rfl⟩)
      simp only [lookupStore, if_neg hk]
      exact ih hk2 hmem'

/-- C6: for a store with unique names, clicking a councillor's card
navigates to the detail route carrying the URL-encoded name,
`decodeURIComponent` recovers exactly the name from it
(decode after encode is the identity), and the detail view's exact-key
lookup finds exactly that councillor's record. -/
theorem card_click_route_trip (store : Store) (name : String) (data : CouncillorData)
    (hkeys : (store.map Prod.fst).Nodup) (hmem : (name, data) ∈ store) :
    cardClickRoute name = "/councillor/" ++ encodeURIComponent name ∧
    decodeURIComponent (encodeURIComponent name) = some name ∧
    renderCouncillorDetail store (some (encodeURIComponent name)) =
      some (renderDetailFound name data) := by
  have hjs : jsLookup store name = JsLookup.found data := by
    simp only [jsLookup, lookupStore_eq_of_mem store name data hkeys hmem]
  refine ⟨rfl, decode_encode name, ?_⟩
  simp only [renderCouncillorDetail, decode_encode name, hjs]

/-- Witness for C6 at the concrete store (the encoded route parameter is
`Jane%20Doe`). -/
theorem card_click_route_trip_witness :
    renderCouncillorDetail sampleStore (some (encodeURIComponent "Jane Doe")) =
      some (renderDetailFound "Jane Doe" janeData) :=
  (card_click_route_trip sampleStore "Jane Doe" janeData (by decide) (by decide)).2.2

/-- C3 (amended): lookup miss is not the only error condition.  List
filtering and rendering are total, but the detail view has two throwing
paths beside the not-found render: a malformed percent-escape raises
`URIError` at `decodeURIComponent`, and a decoded name that is not a
store key but names an `Object.prototype` property passes the truthy
guard and raises `TypeError` at `Object.entries`.  The render therefore
produces a result (found record or not-found message) exactly when the
route parameter decodes and the decoded name is not an inherited
prototype member. -/
theorem detail_render_success_condition (store : Store) (n : String) :
    (renderCouncillorDetail store (some n)).isSome =
      (match decodeURIComponent n with
       | none => false
       | some dn => !(isInherited (jsLookup store dn))) := by
  cases hdec : decodeURIComponent n with
  | none => simp only [renderCouncillorDetail, hdec, Option.isSome]
  | some dn =>
    cases hlook : jsLookup store dn with
    | found c =>
      simp only [renderCouncillorDetail, hdec, hlook, Option.isSome, isInherited,
        Bool.not_false]
    | inherited =>
      simp only [renderCouncillorDetail, hdec, hlook, Option.isSome, isInherited,
        Bool.not_true]
    | missing =>
      simp only [renderCouncillorDetail, hdec, hlook, Option.isSome, isInherited,
        Bool.not_false]

/-- Counterexample to C3 as stated: at route parameter `%` the decode
raises `URIError` (no two hex digits follow the escape), so the detail
view throws instead of producing a found/not-found result. -/
theorem detail_render_error_on_malformed :
    renderCouncillorDetail sampleStore (some "%") = none ∧
    decodeURIComponent "%" = none := by
  decide
